import Mathlib

/-!
Verification of the per-peer runtime core and the UAPI configuration parser of
a WireGuard-style tunnel endpoint (packages `device` and `wgcfg`).

Shallow embedding conventions: Go strings are modelled as `List Char`, byte
slices as `List Nat` (each entry < 256 where it matters), machine integers as
`Nat`/`Int` with explicit bounds, channels and maps as lists, and fallible
functions return `Option`/`Except`.  Functions from the Go standard library
(`strconv`, `strings`, `net`, `encoding/hex`) that the sources call are
embedded from their documented semantics; functions of this repository that
are outside the provided sources are modelled from the specification and say
so in their doc comments.
-/

namespace WG

/-! ### Go standard-library primitives -/

/-- One decimal digit, the byte test `'0' <= c && c <= '9'` used throughout
Go `strconv` and `net`. -/
def decDigit (c : Char) : Option Nat :=
  if '0' ≤ c ∧ c ≤ '9' then some (c.toNat - '0'.toNat) else none

/-- One hexadecimal digit as accepted by Go `encoding/hex.fromHexChar` and
`net.xtoi`. -/
def hexDigit (c : Char) : Option Nat :=
  if '0' ≤ c ∧ c ≤ '9' then some (c.toNat - '0'.toNat)
  else if 'a' ≤ c ∧ c ≤ 'f' then some (c.toNat - 'a'.toNat + 10)
  else if 'A' ≤ c ∧ c ≤ 'F' then some (c.toNat - 'A'.toNat + 10)
  else none

/-- Accumulating loop of a plain decimal number (no sign), `none` on a
non-digit.  Used to model `strconv.Atoi` / `strconv.ParseUint`. -/
def decValCore : Nat → List Char → Option Nat
  | acc, [] => some acc
  | acc, c :: cs =>
    match decDigit c with
    | none => none
    | some d => decValCore (acc * 10 + d) cs

/-- Value of a non-empty all-digit string. -/
def digitsVal : List Char → Option Nat
  | [] => none
  | c :: cs => decValCore 0 (c :: cs)

/-- Go `strconv.Atoi` on a 64-bit platform: optional single `+`/`-` sign
followed by one or more decimal digits; the value must fit a signed 64-bit
integer, otherwise a range error (modelled as `none`). -/
def goAtoi (s : List Char) : Option Int :=
  match s with
  | '+' :: rest =>
    (digitsVal rest).bind fun n => if n < 2 ^ 63 then some (n : Int) else none
  | '-' :: rest =>
    (digitsVal rest).bind fun n => if n ≤ 2 ^ 63 then some (-(n : Int)) else none
  | _ =>
    (digitsVal s).bind fun n => if n < 2 ^ 63 then some (n : Int) else none

/-- Go `strconv.ParseUint(s, 10, 16)`: no sign, one or more decimal digits,
value below `2^16`. -/
def parseUint16 (s : List Char) : Option Nat :=
  (digitsVal s).bind fun n => if n < 2 ^ 16 then some n else none

/-- Go `strings.Split(s, sep)` for a one-byte separator. -/
def goSplit (sep : Char) : List Char → List (List Char)
  | [] => [[]]
  | c :: rest =>
    if c = sep then [] :: goSplit sep rest
    else
      match goSplit sep rest with
      | g :: gs => (c :: g) :: gs
      | [] => [[c]]

/-- Index of the first occurrence of `c` at offset `n`, `-1` when absent:
the loop behind Go `strings.IndexByte`. -/
def goIndexAux (c : Char) : List Char → Nat → Int
  | [], _ => -1
  | x :: xs, n => if x = c then (n : Int) else goIndexAux c xs (n + 1)

/-- Go `strings.IndexByte`: first index of `c` in `l`, `-1` when absent. -/
def goIndexByte (l : List Char) (c : Char) : Int :=
  goIndexAux c l 0

/-- Go `strings.LastIndexByte`, with `none` for Go's `-1`. -/
def goLastIndexByte : List Char → Char → Option Nat
  | [], _ => none
  | x :: xs, c =>
    match goLastIndexByte xs c with
    | some i => some (i + 1)
    | none => if x = c then some 0 else none

/-- Go `encoding/hex.DecodeString`: even number of hex digits, two digits per
output byte; `none` on an odd length or a non-hex character. -/
def hexDecode : List Char → Option (List Nat)
  | [] => some []
  | [_] => none
  | a :: b :: rest =>
    match hexDigit a, hexDigit b with
    | some x, some y => (hexDecode rest).map fun l => (x * 16 + y) :: l
    | _, _ => none

/-! ### Go `net.ParseIP` -/

/-- The 4-byte IPv4 address `a.b.c.d` in Go's 16-byte internal form
(`net.IPv4`, the `v4InV6Prefix` layout). -/
def v4InV6 (a b c d : Nat) : List Nat :=
  [0, 0, 0, 0, 0, 0, 0, 0, 0, 0, 0xff, 0xff, a, b, c, d]

/-- Go `net.dtoi` digit loop: consumes leading decimal digits, failing
(`none`) when the accumulator reaches `big = 0xFFFFFF`; otherwise returns the
value and the unconsumed remainder. -/
def dtoiCore : Nat → List Char → Option (Nat × List Char)
  | acc, [] => some (acc, [])
  | acc, c :: cs =>
    match decDigit c with
    | none => some (acc, c :: cs)
    | some d =>
      if 0xFFFFFF ≤ acc * 10 + d then none else dtoiCore (acc * 10 + d) cs

/-- Go `net.dtoi`: additionally fails on zero consumed digits. -/
def dtoiGo : List Char → Option (Nat × List Char)
  | [] => none
  | c :: cs => if (decDigit c).isSome then dtoiCore 0 (c :: cs) else none

/-- Go `net.xtoi` digit loop (hexadecimal version of `dtoiCore`). -/
def xtoiCore : Nat → List Char → Option (Nat × List Char)
  | acc, [] => some (acc, [])
  | acc, c :: cs =>
    match hexDigit c with
    | none => some (acc, c :: cs)
    | some d =>
      if 0xFFFFFF ≤ acc * 16 + d then none else xtoiCore (acc * 16 + d) cs

/-- Go `net.xtoi`: fails on zero consumed digits or overflow. -/
def xtoiGo : List Char → Option (Nat × List Char)
  | [] => none
  | c :: cs => if (hexDigit c).isSome then xtoiCore 0 (c :: cs) else none

/-- One dotted-decimal field of `net.parseIPv4`: `dtoi` then the `n > 0xFF`
bound. -/
def v4field (s : List Char) : Option (Nat × List Char) :=
  match dtoiGo s with
  | none => none
  | some (n, rest) => if 255 < n then none else some (n, rest)

/-- Go `net.parseIPv4`: exactly four dot-separated decimal fields, each
0..255, consuming the whole string; result in the 16-byte form. -/
def parseIPv4go (s : List Char) : Option (List Nat) :=
  match v4field s with
  | none => none
  | some (a, s1) =>
    match s1 with
    | '.' :: s2 =>
      match v4field s2 with
      | none => none
      | some (b, s3) =>
        match s3 with
        | '.' :: s4 =>
          match v4field s4 with
          | none => none
          | some (c, s5) =>
            match s5 with
            | '.' :: s6 =>
              match v4field s6 with
              | none => none
              | some (d, s7) => if s7 = [] then some (v4InV6 a b c d) else none
            | _ => none
        | _ => none
    | _ => none

/-- Post-loop step of Go `net.parseIPv6`: expand the ellipsis when fewer than
16 bytes were written, reject an ellipsis that stands for zero groups. -/
def v6finish (ip : List Nat) (ell : Option Nat) : Option (List Nat) :=
  if ip.length < 16 then
    match ell with
    | none => none
    | some e => some (ip.take e ++ List.replicate (16 - ip.length) 0 ++ ip.drop e)
  else
    match ell with
    | some _ => none
    | none => some ip

/-- Main loop of Go `net.parseIPv6`.  `s` is the unparsed input, `ip` the
bytes emitted so far (Go's index `i` is `ip.length`), `ell` the ellipsis
position.  The first argument is fuel; every iteration consumes at least one
character, so `length + 1` fuel at the call site is never exhausted. -/
def v6step : Nat → List Char → List Nat → Option Nat → Option (List Nat)
  | 0, _, _, _ => none
  | f + 1, s, ip, ell =>
    if 16 ≤ ip.length then none
    else
      match xtoiGo s with
      | none => none
      | some (n, rest) =>
        if 0xFFFF < n then none
        else if rest.headD ' ' = '.' then
          if ell = none ∧ ip.length ≠ 12 then none
          else if 16 < ip.length + 4 then none
          else
            match parseIPv4go s with
            | none => none
            | some ip4 => v6finish (ip ++ ip4.drop 12) ell
        else
          match rest with
          | [] => v6finish (ip ++ [n / 256, n % 256]) ell
          | [':'] => none
          | ':' :: ':' :: rest2 =>
            if ell.isSome then none
            else if rest2 = [] then
              v6finish (ip ++ [n / 256, n % 256]) (some (ip.length + 2))
            else v6step f rest2 (ip ++ [n / 256, n % 256]) (some (ip.length + 2))
          | ':' :: rest1 => v6step f rest1 (ip ++ [n / 256, n % 256]) ell
          | _ => none

/-- Go `net.parseIPv6` (zone-less form used by `net.ParseIP`): optional
leading `::`, then the group loop. -/
def parseIPv6go : List Char → Option (List Nat)
  | ':' :: ':' :: rest =>
    if rest = [] then some (List.replicate 16 0)
    else v6step (rest.length + 1) rest [] (some 0)
  | s => v6step (s.length + 1) s [] none

/-- Go `net.ParseIP`: dispatch on the first `.` or `:` encountered. -/
def goParseIP (s : List Char) : Option (List Nat) :=
  match s.find? (fun c => c == '.' || c == ':') with
  | some '.' => parseIPv4go s
  | some ':' => parseIPv6go s
  | _ => none

/-! ### `wgcfg` endpoint and key parsing (src/unnamed/part_000) -/

/-- `wgcfg.ParseError`: a reason and the offending fragment. -/
structure ParseError where
  why : String
  offender : List Char
deriving DecidableEq

/-- Errors escaping `parsePort`/`parseEndpoint`: either a `strconv.Atoi`
error (which Go propagates as-is, here tagged with the input) or a
`ParseError`. -/
inductive PEErr where
  | atoi (s : List Char)
  | parse (e : ParseError)
deriving DecidableEq

/-- `parsePort` (part_000 lines 69-78): `strconv.Atoi`, then the range check
`m < 0 || m > 65535`. -/
def parsePort (s : List Char) : Except PEErr Nat :=
  match goAtoi s with
  | none => .error (.atoi s)
  | some m =>
    if m < 0 ∨ m > 65535 then .error (.parse ⟨"Invalid port", s⟩)
    else .ok m.toNat

/-- The bracket/IPv6 validation of `parseEndpoint` (part_000 lines 53-65),
applied to the raw host once the port parsed.  Mirrors the source: the outer
guard fires on a leading `[`, a trailing `]`, or a colon at index > 0; the
inner guard demands a well-formed bracket pair whose interior `net.ParseIP`
accepts as 16 bytes, and strips the brackets. -/
def bracketCheck (host : List Char) (port : Nat) : Except PEErr (List Char × Nat) :=
  if host.headD ' ' = '[' ∨ host.getLastD ' ' = ']' ∨ goIndexByte host ':' > 0 then
    if 3 < host.length ∧ host.headD ' ' = '[' ∧ host.getLastD ' ' = ']' ∧
        goIndexByte host ':' > 0 then
      match goParseIP ((host.drop 1).dropLast) with
      | none => .error (.parse ⟨"Brackets must contain an IPv6 address", host⟩)
      | some ip =>
        if ip.length ≠ 16 then
          .error (.parse ⟨"Brackets must contain an IPv6 address", host⟩)
        else .ok ((host.drop 1).dropLast, port)
    else .error (.parse ⟨"Brackets must contain an IPv6 address", host⟩)
  else .ok (host, port)

/-- `parseEndpoint` (part_000 lines 40-67): split at the last colon, reject an
empty host, parse the port, then validate brackets. -/
def parseEndpoint (s : List Char) : Except PEErr (List Char × Nat) :=
  match goLastIndexByte s ':' with
  | none => .error (.parse ⟨"Missing port from endpoint", s⟩)
  | some i =>
    if (s.take i).length < 1 then .error (.parse ⟨"Invalid endpoint host", s.take i⟩)
    else
      match parsePort (s.drop (i + 1)) with
      | .error e => .error e
      | .ok port => bracketCheck (s.take i) port

/-- `validateEndpoints` (part_000 lines 29-38): split on `,`, `parseEndpoint`
each element, first error wins. -/
def validateEndpointList : List (List Char) → Except PEErr Unit
  | [] => .ok ()
  | v :: rest =>
    match parseEndpoint v with
    | .error e => .error e
    | .ok _ => validateEndpointList rest

/-- `validateEndpoints` entry point. -/
def validateEndpoints (s : List Char) : Except PEErr Unit :=
  validateEndpointList (goSplit ',' s)

/-- `wgcfg.KeySize = 32` (the key type is a 32-byte array; the constant's
defining file is outside the provided sources, the spec fixes hex-encoded
32-byte keys). -/
def KeySize : Nat := 32

/-- `parseKeyHex` (part_000 lines 80-91): hex-decode, then demand exactly 32
bytes. -/
def parseKeyHex (s : List Char) : Except ParseError (List Nat) :=
  match hexDecode s with
  | none => .error ⟨"Invalid key: hex decode failed", s⟩
  | some k =>
    if k.length ≠ KeySize then
      .error ⟨"Keys must decode to exactly 32 bytes", s⟩
    else .ok k

/-! ### `wgcfg` UAPI configuration parsing (src/unnamed/part_000) -/

/-- Error text of a `ParseError` (`ParseError.Error`, with the quoting
abbreviated). -/
def parseErrMsg (e : ParseError) : List Char :=
  e.why.toList ++ ": ".toList ++ e.offender

/-- Error text of an endpoint/port error as it escapes to `FromUAPI`. -/
def peErrMsg : PEErr → List Char
  | .atoi s => "strconv.Atoi error: ".toList ++ s
  | .parse e => parseErrMsg e

/-- One peer stanza of `wgcfg.Config`.  The `Config`/`Peer` record types are
declared outside the provided sources; their fields are reconstructed from
the uses in part_000 (`PublicKey`, `Endpoints`, `PersistentKeepalive`,
`AllowedIPs`).  An allowed-IP prefix is kept in its parsed external
representation (`List Char`), since `netaddr.ParseIPPrefix` is an external
collaborator. -/
structure UPeer where
  publicKey : List Nat
  endpoints : List Char
  persistentKeepalive : Nat
  allowedIPs : List (List Char)
deriving DecidableEq

/-- `wgcfg.Config` as used in part_000: device identity, port, peers. -/
structure Config where
  privateKey : List Nat
  listenPort : Nat
  peers : List UPeer
deriving DecidableEq

/-- `new(Config)`: Go zero value. -/
def Config.init : Config :=
  { privateKey := List.replicate 32 0, listenPort := 0, peers := [] }

/-- `handlePublicKeyLine` (part_000 lines 168-177) appends a fresh peer with
the given public key; the "current peer" is thereafter the last list entry. -/
def Config.addPeer (cfg : Config) (key : List Nat) : Config :=
  { cfg with
    peers := cfg.peers ++
      [{ publicKey := key, endpoints := [], persistentKeepalive := 0, allowedIPs := [] }] }

/-- Apply `f` to the peer currently being configured (Go mutates the last
`Peers` entry through the `peer` pointer). -/
def Config.modifyLastPeer (cfg : Config) (f : UPeer → UPeer) : Config :=
  { cfg with
    peers :=
      cfg.peers.dropLast ++
        match cfg.peers.getLast? with
        | none => []
        | some p => [f p] }

/-- The peer-section keys accepted and ignored (part_000 lines 203-204). -/
def ignoredPeerKeys : List (List Char) :=
  ["preshared_key".toList, "last_handshake_time_sec".toList,
    "last_handshake_time_nsec".toList, "tx_bytes".toList, "rx_bytes".toList]

/-- An external parser for `netaddr.ParseIPPrefix` (out-of-scope library);
`FromUAPI` is parametrised over it. -/
def IPPOracle : Type :=
  List Char → Except (List Char) (List Char)

/-- `Config.handleDeviceLine` (part_000 lines 145-166). -/
def handleDeviceLine (cfg : Config) (key value : List Char) :
    Except (List Char) Config :=
  if key = "private_key".toList then
    match parseKeyHex value with
    | .error e => .error (parseErrMsg e)
    | .ok k => .ok { cfg with privateKey := k }
  else if key = "listen_port".toList then
    match parseUint16 value with
    | none => .error ("failed to parse listen_port: ".toList ++ value)
    | some n => .ok { cfg with listenPort := n }
  else if key = "fwmark".toList then .ok cfg
  else .error ("unexpected IpcGetOperation key: ".toList ++ key)

/-- `Config.handlePeerLine` (part_000 lines 179-209). -/
def handlePeerLine (oracle : IPPOracle) (cfg : Config) (key value : List Char) :
    Except (List Char) Config :=
  if key = "endpoint".toList then
    match validateEndpoints value with
    | .error e => .error (peErrMsg e)
    | .ok _ => .ok (cfg.modifyLastPeer fun p => { p with endpoints := value })
  else if key = "persistent_keepalive_interval".toList then
    match parseUint16 value with
    | none => .error ("failed to parse persistent_keepalive_interval: ".toList ++ value)
    | some n => .ok (cfg.modifyLastPeer fun p => { p with persistentKeepalive := n })
  else if key = "allowed_ip".toList then
    match oracle value with
    | .error e => .error e
    | .ok ipp => .ok (cfg.modifyLastPeer fun p => { p with allowedIPs := p.allowedIPs ++ [ipp] })
  else if key = "protocol_version".toList then
    if value ≠ "1".toList then .error ("invalid protocol version: ".toList ++ value)
    else .ok cfg
  else if key ∈ ignoredPeerKeys then .ok cfg
  else .error ("unexpected IpcGetOperation key: ".toList ++ key)

/-- One line of the `FromUAPI` scanner loop (part_000 lines 102-136), acting
on the state (config so far, `deviceConfig` flag).  An empty line is skipped;
a line must split on `=` into exactly two parts; `public_key` starts a peer
stanza; other keys dispatch on the section. -/
def uapiStep (oracle : IPPOracle) (st : Config × Bool) (line : List Char) :
    Except (List Char) (Config × Bool) :=
  if line = [] then .ok st
  else
    match goSplit '=' line with
    | [k, v] =>
      if k = "public_key".toList then
        match parseKeyHex v with
        | .error e => .error (parseErrMsg e)
        | .ok key => .ok (st.1.addPeer key, false)
      else if st.2 then
        match handleDeviceLine st.1 k v with
        | .error e => .error e
        | .ok cfg => .ok (cfg, st.2)
      else
        match handlePeerLine oracle st.1 k v with
        | .error e => .error e
        | .ok cfg => .ok (cfg, st.2)
    | _ => .error ("failed to parse line: ".toList ++ line)

/-- The `FromUAPI` scanner loop over a list of input lines. -/
def processLines (oracle : IPPOracle) (st : Config × Bool) :
    List (List Char) → Except (List Char) (Config × Bool)
  | [] => .ok st
  | line :: rest =>
    match uapiStep oracle st line with
    | .error e => .error e
    | .ok st' => processLines oracle st' rest

/-- `FromUAPI` (part_000 lines 96-143) over the stream's lines: start from
the zero config in the device section and return the config on success. -/
def FromUAPI (oracle : IPPOracle) (lines : List (List Char)) :
    Except (List Char) Config :=
  (processLines oracle (Config.init, true) lines).map Prod.fst

/-- Every key the parser recognizes somewhere: the stanza opener
`public_key`, the device-section keys, the peer-section keys, and the
ignored peer keys. -/
def recognizedUAPIKeys : List (List Char) :=
  ["public_key".toList, "private_key".toList, "listen_port".toList,
    "fwmark".toList, "endpoint".toList, "persistent_keepalive_interval".toList,
    "allowed_ip".toList, "protocol_version".toList] ++ ignoredPeerKeys

/-- The key list enumerated by the claim about unknown keys: the recognized
device keys, the recognized peer keys and the documented ignored keys — the
claim's list omits `public_key`. -/
def claimC8RecognizedKeys : List (List Char) :=
  ["private_key".toList, "listen_port".toList, "fwmark".toList,
    "endpoint".toList, "persistent_keepalive_interval".toList,
    "allowed_ip".toList, "protocol_version".toList] ++ ignoredPeerKeys

/-! ### Peer lifecycle: `Stop` / `ZeroAndFlushAll` (src/device/peer.go)

The lifecycle model keeps exactly the state those functions touch: the
running flag, the stop channel, the three queues, the keypair slots, the
handshake, and the device index table.  Channels are modelled by their
closed flag (plus contents for the nonce queue), the index table by the
list of allocated indices. -/

/-- One session keypair: its device-table index and its directional AEAD key
material. -/
structure Keypair where
  localIndex : Nat
  sendKey : List Nat
  receiveKey : List Nat
deriving DecidableEq

/-- The three keypair slots of a peer. -/
structure Keypairs where
  previous : Option Keypair
  current : Option Keypair
  next : Option Keypair
deriving DecidableEq

/-- `Keypairs.loadNext`: atomic load of the next slot. -/
def Keypairs.loadNext (k : Keypairs) : Option Keypair :=
  k.next

/-- `Keypairs.storeNext`: atomic store of the next slot. -/
def Keypairs.storeNext (k : Keypairs) (v : Option Keypair) : Keypairs :=
  { k with next := v }

/-- Handshake state: the device-table index plus the secret key material the
spec requires to be zeroed (chaining key, hash, ephemeral keys, precomputed
static-static secret). -/
structure Handshake where
  localIndex : Nat
  chainKey : List Nat
  hash : List Nat
  localEphemeral : List Nat
  remoteEphemeral : List Nat
  precomputedStaticStatic : List Nat
deriving DecidableEq

/-- Modelled from the spec: `Handshake.Clear` (declared in the noise-protocol
file, outside the provided sources).  The spec says `Stop`/`ZeroAndFlushAll`
leave "the handshake zeroed" and "all key material bytes zero", so every key
material field becomes zero bytes and the local index is reset. -/
def Handshake.Clear (h : Handshake) : Handshake :=
  { localIndex := 0,
    chainKey := List.replicate h.chainKey.length 0,
    hash := List.replicate h.hash.length 0,
    localEphemeral := List.replicate h.localEphemeral.length 0,
    remoteEphemeral := List.replicate h.remoteEphemeral.length 0,
    precomputedStaticStatic := List.replicate h.precomputedStaticStatic.length 0 }

/-- All key material bytes of a handshake are zero. -/
def Handshake.cleared (h : Handshake) : Prop :=
  (∀ b ∈ h.chainKey, b = 0) ∧ (∀ b ∈ h.hash, b = 0) ∧
    (∀ b ∈ h.localEphemeral, b = 0) ∧ (∀ b ∈ h.remoteEphemeral, b = 0) ∧
    (∀ b ∈ h.precomputedStaticStatic, b = 0)

/-- The per-peer state `Stop` and `ZeroAndFlushAll` interact with. -/
structure LifePeer where
  isRunning : Bool
  stopClosed : Bool
  timersStopped : Bool
  nonceQueue : List Nat
  nonceClosed : Bool
  outboundClosed : Bool
  inboundClosed : Bool
  keypairs : Keypairs
  handshake : Handshake
deriving DecidableEq

/-- A peer together with the device index table it is registered in. -/
structure LifeState where
  indexTable : List Nat
  peer : LifePeer
deriving DecidableEq

/-- Modelled from the spec: `Device.DeleteKeypair` (device.go, outside the
provided sources) removes a non-nil keypair's local index from the device
index table ("all three slots are removed from the index table"). -/
def deleteKeypair (tbl : List Nat) : Option Keypair → List Nat
  | none => tbl
  | some kp => tbl.filter (· ≠ kp.localIndex)

/-- `IndexTable.Delete` (outside the provided sources): remove an index. -/
def indexTableDelete (tbl : List Nat) (idx : Nat) : List Nat :=
  tbl.filter (· ≠ idx)

/-- `Peer.ZeroAndFlushAll` (peer.go lines 222-246): delete the three keypair
slots from the index table and nil them, delete the handshake's local index
and clear the handshake, then flush the nonce queue (`FlushNonceQueue`,
outside the provided sources, modelled from the spec's "the nonce queue is
drained"). -/
def ZeroAndFlushAll (st : LifeState) : LifeState :=
  let t1 := deleteKeypair st.indexTable st.peer.keypairs.previous
  let t2 := deleteKeypair t1 st.peer.keypairs.current
  let t3 := deleteKeypair t2 st.peer.keypairs.loadNext
  let t4 := indexTableDelete t3 st.peer.handshake.localIndex
  { indexTable := t4,
    peer :=
      { st.peer with
        keypairs :=
          ({ st.peer.keypairs with previous := none, current := none }).storeNext none,
        handshake := st.peer.handshake.Clear,
        nonceQueue := [] } }

/-- `Peer.Stop` (peer.go lines 267-296): the `isRunning.Swap(false)` guard
returns at once when the peer was not running; otherwise the timers are
stopped, the stop channel is closed, the three queues are closed, and
`ZeroAndFlushAll` runs. -/
def Stop (st : LifeState) : LifeState :=
  if st.peer.isRunning then
    ZeroAndFlushAll
      { st with
        peer :=
          { st.peer with
            isRunning := false, timersStopped := true, stopClosed := true,
            nonceClosed := true, outboundClosed := true, inboundClosed := true } }
  else st

/-! ### Endpoint roaming: `SetEndpointAddress` (peer.go lines 298-317) -/

/-- A UDP source address. -/
structure UDPAddr where
  ip : List Nat
  port : Nat
deriving DecidableEq

/-- A `conn.Endpoint` as far as roaming is concerned: its destination. -/
structure ConnEndpoint where
  dst : UDPAddr
deriving DecidableEq

/-- The peer state touched by roaming; `id` identifies the peer so that the
allowed-IP lookup can be compared against it. -/
structure RoamPeer where
  id : Nat
  endpoint : Option ConnEndpoint
deriving DecidableEq

/-- The device as seen by roaming: the allowed-IP trie, as the peer id owning
an address (`allowedips.LookupIP`, outside the provided sources). -/
structure RoamDevice where
  lookupIP : List Nat → Option Nat

/-- Modelled from the spec: `Endpoint.UpdateDst` (conn package, outside the
provided sources) sets the endpoint's destination to the given address ("the
peer's endpoint is updated to the new source"). -/
def ConnEndpoint.UpdateDst (_ : ConnEndpoint) (addr : UDPAddr) : ConnEndpoint :=
  { dst := addr }

/-- `Peer.SetEndpointAddress` (peer.go lines 300-317): a no-op when roaming
is disabled, when the allowed-IP trie maps the source address to any peer, or
when the peer has no endpoint; otherwise the endpoint destination is
updated. -/
def SetEndpointAddress (roamingDisabled : Bool) (dev : RoamDevice)
    (peer : RoamPeer) (addr : UDPAddr) : RoamPeer :=
  if roamingDisabled then peer
  else
    match dev.lookupIP addr.ip with
    | some _ => peer
    | none =>
      match peer.endpoint with
      | none => peer
      | some e => { peer with endpoint := some (e.UpdateDst addr) }

/-! ### `Device.NewPeer` (peer.go lines 80-142) -/

/-- A public key (32 bytes). -/
abbrev WKey : Type :=
  List Nat

/-- The device state `NewPeer` reads and writes: the closed/up flags and the
set of public keys present in the peer map. -/
structure NPDevice where
  isClosed : Bool
  isUp : Bool
  keyMap : List WKey
deriving DecidableEq

/-- The part of the created peer the claim observes: its remote static key
(`handshake.remoteStatic = pk`). -/
structure NPPeer where
  remoteStatic : WKey
deriving DecidableEq

/-- `Device.NewPeer`: reject a closed device, then a full peer map (the
`MaxPeers` constant is declared outside the provided sources, so it is a
parameter), then an existing key; otherwise register the peer under its
key.  On every error path the peer map is untouched. -/
def NewPeer (maxPeers : Nat) (d : NPDevice) (pk : WKey) :
    NPDevice × Except String NPPeer :=
  if d.isClosed then (d, .error "device closed")
  else if maxPeers ≤ d.keyMap.length then (d, .error "too many peers")
  else if pk ∈ d.keyMap then (d, .error "adding existing peer")
  else ({ d with keyMap := pk :: d.keyMap }, .ok { remoteStatic := pk })

/-! ### `Peer.SendBuffer` (peer.go lines 144-164) -/

/-- The peer state `SendBuffer` reads and writes: the atomic statistics and
the (opaque) endpoint. -/
structure StatsPeer where
  txBytes : Nat
  rxBytes : Nat
  lastHandshakeNano : Int
  endpoint : Option Nat
deriving DecidableEq

/-- The device networking state: `net.bind`, whose `Send` either succeeds or
returns an error string (the bind is an external interface, so its behaviour
is a parameter). -/
structure NetState where
  bind : Option (List Nat → Nat → Option String)

/-- Result of `SendBuffer`: the updated peer, the returned error, and the
datagrams handed to `bind.Send`. -/
structure SendResult where
  peer : StatsPeer
  res : Except String Unit
  sent : List (List Nat × Nat)

/-- `Peer.SendBuffer`: error without sending when there is no bind or no
known endpoint; otherwise send, and add the buffer length to `txBytes`
(64-bit wrap-around) exactly when `Send` succeeded. -/
def SendBuffer (net : NetState) (p : StatsPeer) (buffer : List Nat) : SendResult :=
  match net.bind with
  | none => ⟨p, .error "no bind", []⟩
  | some send =>
    match p.endpoint with
    | none => ⟨p, .error "no known endpoint for peer", []⟩
    | some ep =>
      match send buffer ep with
      | none =>
        ⟨{ p with txBytes := (p.txBytes + buffer.length) % 2 ^ 64 }, .ok (), [(buffer, ep)]⟩
      | some e => ⟨p, .error e, [(buffer, ep)]⟩

/-! ### Concrete states used by witnesses -/

/-- A concrete running peer with three keypairs registered. -/
def lifeRun : LifeState :=
  { indexTable := [1, 2, 3, 4, 9],
    peer :=
      { isRunning := true, stopClosed := false, timersStopped := false,
        nonceQueue := [5, 6], nonceClosed := false, outboundClosed := false,
        inboundClosed := false,
        keypairs :=
          { previous := some ⟨1, [11], [12]⟩, current := some ⟨2, [13], [14]⟩,
            next := some ⟨3, [15], [16]⟩ },
        handshake := ⟨4, [21], [22], [23], [24], [25]⟩ } }

/-- A concrete stopped peer with residual state. -/
def lifeIdle : LifeState :=
  { indexTable := [1],
    peer :=
      { isRunning := false, stopClosed := false, timersStopped := false,
        nonceQueue := [3], nonceClosed := false, outboundClosed := false,
        inboundClosed := false,
        keypairs := { previous := none, current := some ⟨1, [2], [3]⟩, next := none },
        handshake := ⟨5, [1], [2], [3], [4], [5]⟩ } }

/-- Another concrete peer state with one current keypair. -/
def lifeAny : LifeState :=
  { indexTable := [7, 8],
    peer :=
      { isRunning := false, stopClosed := false, timersStopped := false,
        nonceQueue := [1], nonceClosed := false, outboundClosed := false,
        inboundClosed := false,
        keypairs := { previous := none, current := some ⟨7, [1], [2]⟩, next := none },
        handshake := ⟨8, [3], [4], [5], [6], [7]⟩ } }

/-! ## Theorems -/

/-! ### Index-table helper lemmas -/

theorem not_mem_filter_ne (l : List Nat) (a : Nat) : a ∉ l.filter (· ≠ a) := by
  simp [List.mem_filter]

theorem not_mem_filter_of_not_mem {l : List Nat} {a : Nat} (p : Nat → Bool)
    (h : a ∉ l) : a ∉ l.filter p :=
  fun hc => h (List.mem_of_mem_filter hc)

theorem not_mem_deleteKeypair {tbl : List Nat} {a : Nat} (o : Option Keypair)
    (h : a ∉ tbl) : a ∉ deleteKeypair tbl o := by
  cases o with
  | none => exact h
  | some kp => exact not_mem_filter_of_not_mem _ h

/-- Everything `ZeroAndFlushAll` establishes, for reuse by the `Stop` and
`ZeroAndFlushAll` claims. -/
theorem zeroAndFlushAll_spec (st : LifeState) :
    (ZeroAndFlushAll st).peer.keypairs = ⟨none, none, none⟩ ∧
    (∀ kp : Keypair,
      (st.peer.keypairs.previous = some kp ∨ st.peer.keypairs.current = some kp ∨
        st.peer.keypairs.next = some kp) →
      kp.localIndex ∉ (ZeroAndFlushAll st).indexTable) ∧
    st.peer.handshake.localIndex ∉ (ZeroAndFlushAll st).indexTable ∧
    (ZeroAndFlushAll st).peer.handshake.cleared ∧
    (ZeroAndFlushAll st).peer.nonceQueue = [] ∧
    (ZeroAndFlushAll st).peer.isRunning = st.peer.isRunning ∧
    (ZeroAndFlushAll st).peer.stopClosed = st.peer.stopClosed ∧
    (ZeroAndFlushAll st).peer.nonceClosed = st.peer.nonceClosed ∧
    (ZeroAndFlushAll st).peer.outboundClosed = st.peer.outboundClosed ∧
    (ZeroAndFlushAll st).peer.inboundClosed = st.peer.inboundClosed := by
  refine ⟨rfl, ?_, ?_, ?_, rfl, rfl, rfl, rfl, rfl, rfl⟩
  · intro kp hkp
    simp only [ZeroAndFlushAll, indexTableDelete]
    rcases hkp with h | h | h
    · refine not_mem_filter_of_not_mem _ ?_
      refine not_mem_deleteKeypair _ ?_
      refine not_mem_deleteKeypair _ ?_
      rw [h]
      simp only [deleteKeypair]
      exact not_mem_filter_ne _ _
    · refine not_mem_filter_of_not_mem _ ?_
      refine not_mem_deleteKeypair _ ?_
      rw [h]
      simp only [deleteKeypair]
      exact not_mem_filter_ne _ _
    · refine not_mem_filter_of_not_mem _ ?_
      rw [Keypairs.loadNext, h]
      simp only [deleteKeypair]
      exact not_mem_filter_ne _ _
  · simp only [ZeroAndFlushAll, indexTableDelete]
    exact not_mem_filter_ne _ _
  · refine ⟨?_, ?_, ?_, ?_, ?_⟩ <;>
      · intro b hb
        simp only [ZeroAndFlushAll, Handshake.Clear] at hb
        exact List.eq_of_mem_replicate hb

/-- Claim C1: after `Stop` returns on a peer whose running flag was true, the
running flag is false, the stop channel is closed, the nonce, outbound and
inbound queues are closed, every keypair slot is nil with its index-table
entry deleted, and the handshake state is cleared (all key material bytes
zero). -/
theorem C1_stop_zeroizes (st : LifeState) (h : st.peer.isRunning = true) :
    (Stop st).peer.isRunning = false ∧
    (Stop st).peer.stopClosed = true ∧
    (Stop st).peer.nonceClosed = true ∧
    (Stop st).peer.outboundClosed = true ∧
    (Stop st).peer.inboundClosed = true ∧
    (Stop st).peer.keypairs = ⟨none, none, none⟩ ∧
    (∀ kp : Keypair,
      (st.peer.keypairs.previous = some kp ∨ st.peer.keypairs.current = some kp ∨
        st.peer.keypairs.next = some kp) →
      kp.localIndex ∉ (Stop st).indexTable) ∧
    (Stop st).peer.handshake.cleared := by
  have hstop : Stop st =
      ZeroAndFlushAll
        { st with
          peer :=
            { st.peer with
              isRunning := false, timersStopped := true, stopClosed := true,
              nonceClosed := true, outboundClosed := true, inboundClosed := true } } := by
    rw [Stop, h]
    simp
  obtain ⟨h1, h2, _, h4, _, h6, h7, h8, h9, h10⟩ :=
    zeroAndFlushAll_spec
      { st with
        peer :=
          { st.peer with
            isRunning := false, timersStopped := true, stopClosed := true,
            nonceClosed := true, outboundClosed := true, inboundClosed := true } }
  rw [hstop]
  exact ⟨h6, h7, h8, h9, h10, h1, h2, h4⟩

/-- Witness for C1 at a concrete running peer. -/
theorem C1_witness :
    lifeRun.peer.isRunning = true ∧
    ((Stop lifeRun).peer.isRunning = false ∧
      (Stop lifeRun).peer.stopClosed = true ∧
      (Stop lifeRun).peer.nonceClosed = true ∧
      (Stop lifeRun).peer.outboundClosed = true ∧
      (Stop lifeRun).peer.inboundClosed = true ∧
      (Stop lifeRun).peer.keypairs = ⟨none, none, none⟩ ∧
      (∀ kp : Keypair,
        (lifeRun.peer.keypairs.previous = some kp ∨
          lifeRun.peer.keypairs.current = some kp ∨
          lifeRun.peer.keypairs.next = some kp) →
        kp.localIndex ∉ (Stop lifeRun).indexTable) ∧
      (Stop lifeRun).peer.handshake.cleared) :=
  ⟨rfl, C1_stop_zeroizes lifeRun rfl⟩

/-- Claim C6: `ZeroAndFlushAll` nils all three keypair slots, deletes their
index-table entries and the handshake's local index, clears the handshake
and flushes the nonce queue. -/
theorem C6_zero_and_flush_all (st : LifeState) :
    (ZeroAndFlushAll st).peer.keypairs = ⟨none, none, none⟩ ∧
    (∀ kp : Keypair,
      (st.peer.keypairs.previous = some kp ∨ st.peer.keypairs.current = some kp ∨
        st.peer.keypairs.next = some kp) →
      kp.localIndex ∉ (ZeroAndFlushAll st).indexTable) ∧
    st.peer.handshake.localIndex ∉ (ZeroAndFlushAll st).indexTable ∧
    (ZeroAndFlushAll st).peer.handshake.cleared ∧
    (ZeroAndFlushAll st).peer.nonceQueue = [] :=
  (zeroAndFlushAll_spec st).imp id fun h =>
    h.imp id fun h => h.imp id fun h => h.imp id fun h => h.1

/-- Witness for C6 at a concrete state. -/
theorem C6_witness :
    (ZeroAndFlushAll lifeAny).peer.keypairs = ⟨none, none, none⟩ ∧
    (∀ kp : Keypair,
      (lifeAny.peer.keypairs.previous = some kp ∨
        lifeAny.peer.keypairs.current = some kp ∨
        lifeAny.peer.keypairs.next = some kp) →
      kp.localIndex ∉ (ZeroAndFlushAll lifeAny).indexTable) ∧
    lifeAny.peer.handshake.localIndex ∉ (ZeroAndFlushAll lifeAny).indexTable ∧
    (ZeroAndFlushAll lifeAny).peer.handshake.cleared ∧
    (ZeroAndFlushAll lifeAny).peer.nonceQueue = [] :=
  C6_zero_and_flush_all lifeAny

/-- Claim C10: `Stop` on a peer whose running flag is already false returns
immediately and leaves the whole state unchanged. -/
theorem C10_stop_not_running (st : LifeState) (h : st.peer.isRunning = false) :
    Stop st = st := by
  rw [Stop, h]
  simp

/-- Witness for C10 at a concrete stopped peer. -/
theorem C10_witness :
    lifeIdle.peer.isRunning = false ∧ Stop lifeIdle = lifeIdle :=
  ⟨rfl, C10_stop_not_running lifeIdle rfl⟩

/-- Claim C2, counterexample: roaming is enabled and the allowed-IP trie
routes the source address to this very peer (id 7), not to another peer, yet
`SetEndpointAddress` leaves the endpoint destination unchanged instead of
updating it to the address. -/
theorem C2_counterexample :
    SetEndpointAddress false ⟨fun _ => some 7⟩
        ⟨7, some ⟨⟨[10, 0, 0, 1], 1000⟩⟩⟩ ⟨[10, 0, 0, 2], 2000⟩
      = ⟨7, some ⟨⟨[10, 0, 0, 1], 1000⟩⟩⟩ ∧
    (⟨[10, 0, 0, 1], 1000⟩ : UDPAddr) ≠ ⟨[10, 0, 0, 2], 2000⟩ :=
  ⟨rfl, by decide⟩

/-- Claim C2 as amended: if roaming is enabled, the allowed-IP trie routes
the source address to no peer at all (not even this one), and the peer has a
current endpoint, then `SetEndpointAddress` updates the endpoint destination
to that address. -/
theorem C2_set_endpoint_address (dev : RoamDevice) (p : RoamPeer) (addr : UDPAddr)
    (e : ConnEndpoint) (hlook : dev.lookupIP addr.ip = none)
    (hep : p.endpoint = some e) :
    (SetEndpointAddress false dev p addr).endpoint = some ⟨addr⟩ := by
  simp [SetEndpointAddress, hlook, hep, ConnEndpoint.UpdateDst]

/-- Witness for C2 at a concrete peer and address. -/
theorem C2_witness :
    (SetEndpointAddress false ⟨fun _ => none⟩
        ⟨7, some ⟨⟨[10, 0, 0, 1], 1000⟩⟩⟩ ⟨[10, 0, 0, 2], 2000⟩).endpoint
      = some ⟨⟨[10, 0, 0, 2], 2000⟩⟩ :=
  C2_set_endpoint_address ⟨fun _ => none⟩ _ _ ⟨⟨[10, 0, 0, 1], 1000⟩⟩ rfl rfl

/-- Claim C5: `NewPeer` fails with "device closed" on a closed device, with
"too many peers" when the map holds `MaxPeers` entries, with "adding existing
peer" when the key is present — leaving the peer map unchanged in each case —
and otherwise adds a peer for the key and returns it. -/
theorem C5_new_peer :
    (∀ (mp : Nat) (d : NPDevice) (pk : WKey), d.isClosed = true →
      NewPeer mp d pk = (d, .error "device closed")) ∧
    (∀ (mp : Nat) (d : NPDevice) (pk : WKey), d.isClosed = false →
      mp ≤ d.keyMap.length → NewPeer mp d pk = (d, .error "too many peers")) ∧
    (∀ (mp : Nat) (d : NPDevice) (pk : WKey), d.isClosed = false →
      d.keyMap.length < mp → pk ∈ d.keyMap →
      NewPeer mp d pk = (d, .error "adding existing peer")) ∧
    (∀ (mp : Nat) (d : NPDevice) (pk : WKey), d.isClosed = false →
      d.keyMap.length < mp → pk ∉ d.keyMap →
      NewPeer mp d pk = ({ d with keyMap := pk :: d.keyMap }, .ok ⟨pk⟩)) := by
  refine ⟨?_, ?_, ?_, ?_⟩
  · intro mp d pk h
    simp [NewPeer, h]
  · intro mp d pk h hle
    simp [NewPeer, h, hle]
  · intro mp d pk h hlt hmem
    have hn : ¬ mp ≤ d.keyMap.length := by omega
    simp [NewPeer, h, hn, hmem]
  · intro mp d pk h hlt hmem
    have hn : ¬ mp ≤ d.keyMap.length := by omega
    simp [NewPeer, h, hn, hmem]

/-- Witness for C5: a closed device rejects a new peer. -/
theorem C5_witness :
    NewPeer 4 ⟨true, false, [[1], [2]]⟩ [3] = (⟨true, false, [[1], [2]]⟩, .error "device closed") :=
  C5_new_peer.1 4 ⟨true, false, [[1], [2]]⟩ [3] rfl

/-- Claim C7: `SendBuffer` increments `txBytes` by the buffer length exactly
when the bind's `Send` succeeds; with no bind or no known endpoint it errors
without sending; `rxBytes` and `lastHandshakeNano` are never changed. -/
theorem C7_send_buffer (net : NetState) (p : StatsPeer) (buf : List Nat) :
    (SendBuffer net p buf).peer.rxBytes = p.rxBytes ∧
    (SendBuffer net p buf).peer.lastHandshakeNano = p.lastHandshakeNano ∧
    (net.bind = none → SendBuffer net p buf = ⟨p, .error "no bind", []⟩) ∧
    (net.bind ≠ none → p.endpoint = none →
      SendBuffer net p buf = ⟨p, .error "no known endpoint for peer", []⟩) ∧
    ((SendBuffer net p buf).res = .ok () →
      (SendBuffer net p buf).peer.txBytes = (p.txBytes + buf.length) % 2 ^ 64) ∧
    (∀ e, (SendBuffer net p buf).res = .error e →
      (SendBuffer net p buf).peer.txBytes = p.txBytes) := by
  cases hb : net.bind with
  | none => simp [SendBuffer, hb]
  | some send =>
    cases he : p.endpoint with
    | none => simp [SendBuffer, hb, he]
    | some ep =>
      cases hs : send buf ep with
      | none => simp [SendBuffer, hb, he, hs]
      | some err => simp [SendBuffer, hb, he, hs]

/-- Witness for C7: with no bind, `SendBuffer` errors without sending. -/
theorem C7_witness :
    SendBuffer ⟨none⟩ ⟨10, 20, 30, none⟩ [1, 2, 3]
      = ⟨⟨10, 20, 30, none⟩, .error "no bind", []⟩ :=
  (C7_send_buffer ⟨none⟩ ⟨10, 20, 30, none⟩ [1, 2, 3]).2.2.1 rfl

/-- Claim C3, counterexample: the port string "0" parses successfully with
value 0, it is not rejected. -/
theorem C3_counterexample : parsePort "0".toList = Except.ok 0 :=
  rfl

/-- Claim C3 as amended: parsing a port succeeds exactly when the string
denotes (per `strconv.Atoi`) an integer in the range 0 to 65535; in
particular the port value 0 is accepted. -/
theorem C3_parse_port :
    (∀ (s : List Char) (n : Nat),
      parsePort s = Except.ok n ↔ goAtoi s = some (n : Int) ∧ n ≤ 65535) ∧
    parsePort "0".toList = Except.ok 0 := by
  refine ⟨?_, rfl⟩
  intro s n
  cases h : goAtoi s with
  | none => simp [parsePort, h]
  | some m =>
    simp only [parsePort, h]
    by_cases hm : m < 0 ∨ m > 65535
    · rw [if_pos hm]
      constructor
      · intro hc
        exact absurd hc (by simp)
      · rintro ⟨h1, h2⟩
        simp only [Option.some.injEq] at h1
        omega
    · rw [if_neg hm]
      constructor
      · intro hc
        simp only [Except.ok.injEq] at hc
        simp only [Option.some.injEq]
        omega
      · rintro ⟨h1, h2⟩
        simp only [Option.some.injEq] at h1
        simp only [Except.ok.injEq]
        omega

/-- Witness for C3 on a nonzero port. -/
theorem C3_witness : parsePort "80".toList = Except.ok 80 :=
  (C3_parse_port.1 "80".toList 80).mpr ⟨rfl, by decide⟩

/-! ### UAPI parser lemmas (C8, C9) -/

theorem goSplit_no_sep (sep : Char) (l : List Char) (h : sep ∉ l) :
    goSplit sep l = [l] := by
  induction l with
  | nil => rfl
  | cons c cs ih =>
    have hc : c ≠ sep := fun hh => h (hh ▸ List.mem_cons_self c cs)
    have hcs : sep ∉ cs := fun hh => h (List.mem_cons_of_mem c hh)
    rw [goSplit, if_neg hc, ih hcs]

theorem goSplit_eq_pair (sep : Char) (k v : List Char) (hk : sep ∉ k)
    (hv : sep ∉ v) : goSplit sep (k ++ sep :: v) = [k, v] := by
  induction k with
  | nil =>
    rw [List.nil_append, goSplit, if_pos rfl, goSplit_no_sep sep v hv]
  | cons c cs ih =>
    have hc : c ≠ sep := fun hh => hk (hh ▸ List.mem_cons_self c cs)
    have hcs : sep ∉ cs := fun hh => hk (List.mem_cons_of_mem c hh)
    rw [List.cons_append, goSplit, if_neg hc, ih hcs]

theorem processLines_append (o : IPPOracle) (st : Config × Bool)
    (pre post : List (List Char)) :
    processLines o st (pre ++ post) =
      match processLines o st pre with
      | .error e => .error e
      | .ok st' => processLines o st' post := by
  induction pre generalizing st with
  | nil => simp [processLines]
  | cons l pre ih =>
    simp only [List.cons_append, processLines]
    cases h : uapiStep o st l with
    | error e => rfl
    | ok st' => exact ih st'

theorem handleDeviceLine_unknown (cfg : Config) (k v : List Char)
    (h1 : k ≠ "private_key".toList) (h2 : k ≠ "listen_port".toList)
    (h3 : k ≠ "fwmark".toList) :
    handleDeviceLine cfg k v
      = .error ("unexpected IpcGetOperation key: ".toList ++ k) := by
  rw [handleDeviceLine, if_neg h1, if_neg h2, if_neg h3]

theorem handlePeerLine_unknown (o : IPPOracle) (cfg : Config) (k v : List Char)
    (h1 : k ≠ "endpoint".toList) (h2 : k ≠ "persistent_keepalive_interval".toList)
    (h3 : k ≠ "allowed_ip".toList) (h4 : k ≠ "protocol_version".toList)
    (h5 : k ∉ ignoredPeerKeys) :
    handlePeerLine o cfg k v
      = .error ("unexpected IpcGetOperation key: ".toList ++ k) := by
  rw [handlePeerLine, if_neg h1, if_neg h2, if_neg h3, if_neg h4, if_neg h5]

theorem uapiStep_ignored_peer (o : IPPOracle) (cfg : Config) (k v : List Char)
    (hmem : k ∈ ignoredPeerKeys) (hv : '=' ∉ v) :
    uapiStep o (cfg, false) (k ++ '=' :: v) = .ok (cfg, false) := by
  simp only [ignoredPeerKeys, List.mem_cons, List.not_mem_nil, or_false] at hmem
  rcases hmem with rfl | rfl | rfl | rfl | rfl <;>
    · rw [uapiStep, if_neg (by simp), goSplit_eq_pair '=' _ v (by decide) hv]
      rfl

theorem uapiStep_fwmark_device (o : IPPOracle) (cfg : Config) (v : List Char)
    (hv : '=' ∉ v) :
    uapiStep o (cfg, true) ("fwmark".toList ++ '=' :: v) = .ok (cfg, true) := by
  rw [uapiStep, if_neg (by simp), goSplit_eq_pair '=' _ v (by decide) hv]
  rfl

/-- Claim C8, counterexample: `public_key` is not among the device and peer
keys the claim enumerates as recognized, yet a stream consisting of one
`public_key` line parses successfully instead of failing. -/
theorem C8_counterexample :
    "public_key".toList ∉ claimC8RecognizedKeys ∧
    FromUAPI (fun _ => Except.error [])
        ["public_key=0000000000000000000000000000000000000000000000000000000000000000".toList]
      = .ok { privateKey := List.replicate 32 0, listenPort := 0,
              peers := [{ publicKey := List.replicate 32 0, endpoints := [],
                          persistentKeepalive := 0, allowedIPs := [] }] } :=
  ⟨by decide, rfl⟩

/-- Claim C8 as amended: in a stream whose prefix parses fine, a line whose
key is neither `public_key` nor one of the recognized device keys, peer keys
or documented ignored keys makes `FromUAPI` fail with an error naming the
offending key, and no config is returned. -/
theorem C8_unknown_key_rejected (o : IPPOracle) (pre : List (List Char))
    (k v : List Char) (post : List (List Char)) (cfg : Config) (dev : Bool)
    (hpre : processLines o (Config.init, true) pre = .ok (cfg, dev))
    (hk : k ∉ recognizedUAPIKeys) (hks : '=' ∉ k) (hvs : '=' ∉ v) :
    FromUAPI o (pre ++ (k ++ '=' :: v) :: post)
      = .error ("unexpected IpcGetOperation key: ".toList ++ k) := by
  have h0 : k ≠ "public_key".toList := by
    intro h; subst h; exact hk (by decide)
  have hpriv : k ≠ "private_key".toList := by
    intro h; subst h; exact hk (by decide)
  have hport : k ≠ "listen_port".toList := by
    intro h; subst h; exact hk (by decide)
  have hfw : k ≠ "fwmark".toList := by
    intro h; subst h; exact hk (by decide)
  have hend : k ≠ "endpoint".toList := by
    intro h; subst h; exact hk (by decide)
  have hpki : k ≠ "persistent_keepalive_interval".toList := by
    intro h; subst h; exact hk (by decide)
  have hip : k ≠ "allowed_ip".toList := by
    intro h; subst h; exact hk (by decide)
  have hpv : k ≠ "protocol_version".toList := by
    intro h; subst h; exact hk (by decide)
  have hign : k ∉ ignoredPeerKeys := by
    intro h; exact hk (List.mem_append_right _ h)
  have hline : (k ++ '=' :: v) ≠ ([] : List Char) := by simp
  have hstep : uapiStep o (cfg, dev) (k ++ '=' :: v)
      = .error ("unexpected IpcGetOperation key: ".toList ++ k) := by
    rw [uapiStep, if_neg hline, goSplit_eq_pair '=' k v hks hvs]
    cases dev with
    | true =>
      simp only [if_neg h0]
      rw [handleDeviceLine_unknown cfg k v hpriv hport hfw]
      simp
    | false =>
      simp only [if_neg h0]
      rw [handlePeerLine_unknown o cfg k v hend hpki hip hpv hign]
      simp
  unfold FromUAPI
  rw [processLines_append, hpre]
  simp only [processLines, hstep, Except.map]

/-- Witness for C8: an unrecognized key is rejected with a message naming
it. -/
theorem C8_witness :
    FromUAPI (fun _ => Except.error []) [("zzz".toList ++ '=' :: "1".toList)]
      = .error ("unexpected IpcGetOperation key: ".toList ++ "zzz".toList) :=
  C8_unknown_key_rejected (fun _ => Except.error []) [] "zzz".toList "1".toList []
    Config.init true rfl (by decide) (by decide) (by decide)

/-- Claim C9, counterexample: `preshared_key` is one of the documented
ignored keys, yet a stream holding such a line in the device section fails
with an unexpected-key error rather than being accepted, and parsing the
stream with the line removed succeeds with a different result. -/
theorem C9_counterexample :
    "preshared_key".toList ∈ ignoredPeerKeys ∧
    FromUAPI (fun _ => Except.error []) ["preshared_key=x".toList]
      = .error ("unexpected IpcGetOperation key: ".toList ++ "preshared_key".toList) ∧
    FromUAPI (fun _ => Except.error []) [] = .ok Config.init :=
  ⟨by decide, rfl, rfl⟩

/-- Claim C9 as amended: a `preshared_key`, `last_handshake_time_sec`,
`last_handshake_time_nsec`, `tx_bytes` or `rx_bytes` line appearing in a
peer section, or a `fwmark` line appearing in the device section, is accepted
without error, and the parse result is identical to that of the stream with
the line removed. -/
theorem C9_ignored_lines (o : IPPOracle) (pre : List (List Char))
    (k v : List Char) (post : List (List Char)) (cfg : Config) (dev : Bool)
    (hpre : processLines o (Config.init, true) pre = .ok (cfg, dev))
    (hk : (k ∈ ignoredPeerKeys ∧ dev = false) ∨ (k = "fwmark".toList ∧ dev = true))
    (hv : '=' ∉ v) :
    FromUAPI o (pre ++ (k ++ '=' :: v) :: post) = FromUAPI o (pre ++ post) := by
  have hstep : uapiStep o (cfg, dev) (k ++ '=' :: v) = .ok (cfg, dev) := by
    rcases hk with ⟨hmem, rfl⟩ | ⟨rfl, rfl⟩
    · exact uapiStep_ignored_peer o cfg k v hmem hv
    · exact uapiStep_fwmark_device o cfg v hv
  unfold FromUAPI
  rw [processLines_append, hpre, processLines_append, hpre]
  simp only [processLines, hstep]

/-- Witness for C9: a `fwmark` line in the device section is dropped. -/
theorem C9_witness :
    FromUAPI (fun _ => Except.error []) [("fwmark".toList ++ '=' :: "5".toList)]
      = FromUAPI (fun _ => Except.error []) [] :=
  C9_ignored_lines (fun _ => Except.error []) [] "fwmark".toList "5".toList []
    Config.init true rfl (Or.inr ⟨rfl, rfl⟩) (by decide)

/-! ### Endpoint parsing lemmas (C4)

An accepted bracketed host must have gone through the IPv6 branch of
`net.ParseIP`: the bracket guard requires a colon in the host, while a
successful `parseIPv4` consumes only digits and dots. -/

theorem dtoiCore_colon : ∀ (s : List Char) (acc n : Nat) (rest : List Char),
    dtoiCore acc s = some (n, rest) → ':' ∈ s → ':' ∈ rest := by
  intro s
  induction s with
  | nil =>
    intro acc n rest _ hc
    exact absurd hc (by simp)
  | cons c cs ih =>
    intro acc n rest h hc
    rw [dtoiCore] at h
    split at h
    · obtain ⟨h1, h2⟩ := Prod.mk.injEq .. ▸ Option.some.inj h
      rw [← h2]
      exact hc
    next d hd =>
      split at h
      · cases h
      · have hcc : c ≠ ':' := by
          intro hcc
          rw [hcc, (by decide : decDigit ':' = none)] at hd
          cases hd
        rcases List.mem_cons.mp hc with h1 | h1
        · exact absurd h1.symm hcc
        · exact ih _ _ _ h h1

theorem dtoiGo_colon (s : List Char) (n : Nat) (rest : List Char)
    (h : dtoiGo s = some (n, rest)) (hc : ':' ∈ s) : ':' ∈ rest := by
  cases s with
  | nil => cases h
  | cons c cs =>
    rw [dtoiGo] at h
    by_cases hd : (decDigit c).isSome
    · rw [if_pos hd] at h
      exact dtoiCore_colon _ _ _ _ h hc
    · rw [if_neg hd] at h
      cases h

theorem v4field_colon (s : List Char) (n : Nat) (rest : List Char)
    (h : v4field s = some (n, rest)) (hc : ':' ∈ s) : ':' ∈ rest := by
  rw [v4field] at h
  split at h
  · cases h
  next m r hf =>
    split at h
    · cases h
    · obtain ⟨h1, h2⟩ := Prod.mk.injEq .. ▸ Option.some.inj h
      rw [← h2]
      exact dtoiGo_colon s m r hf hc

theorem parseIPv4go_no_colon : ∀ (s : List Char) (ip : List Nat),
    parseIPv4go s = some ip → ':' ∉ s := by
  intro s ip h hc
  rw [parseIPv4go] at h
  split at h
  · cases h
  next a s1 heq1 =>
    have hc1 : ':' ∈ s1 := v4field_colon _ _ _ heq1 hc
    split at h
    case _ s2 =>
      have hc2 : ':' ∈ s2 := by
        rcases List.mem_cons.mp hc1 with h' | h'
        · exact absurd h'.symm (by decide)
        · exact h'
      split at h
      · cases h
      next b s3 heq3 =>
        have hc3 : ':' ∈ s3 := v4field_colon _ _ _ heq3 hc2
        split at h
        case _ s4 =>
          have hc4 : ':' ∈ s4 := by
            rcases List.mem_cons.mp hc3 with h' | h'
            · exact absurd h'.symm (by decide)
            · exact h'
          split at h
          · cases h
          next c s5 heq5 =>
            have hc5 : ':' ∈ s5 := v4field_colon _ _ _ heq5 hc4
            split at h
            case _ s6 =>
              have hc6 : ':' ∈ s6 := by
                rcases List.mem_cons.mp hc5 with h' | h'
                · exact absurd h'.symm (by decide)
                · exact h'
              split at h
              · cases h
              next d s7 heq7 =>
                have hc7 : ':' ∈ s7 := v4field_colon _ _ _ heq7 hc6
                split at h
                next hnil =>
                  rw [hnil] at hc7
                  exact absurd hc7 (by simp)
                next => cases h
            next => cases h
        next => cases h
    next => cases h

/-- If `net.ParseIP` accepts a string containing a colon, the string is a
valid IPv6 literal (the IPv4 branch cannot have fired). -/
theorem goParseIP_colon_valid (s : List Char) (ip : List Nat)
    (h : goParseIP s = some ip) (hc : ':' ∈ s) : (parseIPv6go s).isSome = true := by
  rw [goParseIP] at h
  split at h
  · exact absurd hc (parseIPv4go_no_colon _ _ h)
  · rw [h]
    rfl
  · cases h

theorem goIndexAux_not_mem (c : Char) : ∀ (l : List Char) (n : Nat),
    c ∉ l → goIndexAux c l n = -1 := by
  intro l
  induction l with
  | nil => intro n _; rfl
  | cons x xs ih =>
    intro n h
    have hx : x ≠ c := fun hh => h (hh ▸ List.mem_cons_self x xs)
    have hxs : c ∉ xs := fun hh => h (List.mem_cons_of_mem x hh)
    rw [goIndexAux, if_neg hx, ih _ hxs]

theorem mem_dropLast_of_getLastD_ne : ∀ (l : List Char) (c d : Char), c ∈ l →
    l.getLastD d ≠ c → c ∈ l.dropLast := by
  intro l
  induction l with
  | nil =>
    intro c d hm _
    exact absurd hm (by simp)
  | cons a t ih =>
    intro c d hm hne
    cases t with
    | nil =>
      exfalso
      apply hne
      rw [List.getLastD_cons, List.getLastD_nil]
      have hca : c = a := by simpa using hm
      exact hca.symm
    | cons b t2 =>
      rw [List.getLastD_cons] at hne
      rcases List.mem_cons.mp hm with h' | h'
      · exact show c ∈ a :: (b :: t2).dropLast from List.mem_cons.mpr (Or.inl h')
      · exact show c ∈ a :: (b :: t2).dropLast from
          List.mem_cons.mpr (Or.inr (ih c a h' hne))

/-- From the inner bracket guard's facts, the interior of the host contains a
colon. -/
theorem colon_mem_interior (host : List Char) (hhead : host.headD ' ' = '[')
    (hlast : host.getLastD ' ' = ']')
    (hcol : goIndexByte host ':' > 0) : ':' ∈ (host.drop 1).dropLast := by
  cases host with
  | nil => cases hcol
  | cons a t =>
    have ha : a = '[' := hhead
    have hmem : ':' ∈ a :: t := by
      by_contra hnm
      rw [goIndexByte, goIndexAux_not_mem _ _ _ hnm] at hcol
      cases hcol
    have hane : a ≠ ':' := by
      rw [ha]
      decide
    have hmt : ':' ∈ t := by
      rcases List.mem_cons.mp hmem with h' | h'
      · exact absurd h'.symm hane
      · exact h'
    rw [List.getLastD_cons] at hlast
    exact mem_dropLast_of_getLastD_ne t ':' a hmt (by rw [hlast]; decide)

/-- An accepted bracketed host: the returned host is the bracket interior and
it is a valid IPv6 literal. -/
theorem bracketCheck_ipv6 (host : List Char) (port : Nat) (h : List Char)
    (p : Nat) (hok : bracketCheck host port = .ok (h, p))
    (hbr : host.headD ' ' = '[') :
    (parseIPv6go h).isSome = true ∧ h = (host.drop 1).dropLast ∧ p = port := by
  rw [bracketCheck] at hok
  split at hok
  · split at hok
    next hcond =>
      obtain ⟨hlen, hhead, hlast, hcol⟩ := hcond
      split at hok
      · cases hok
      next ip heq =>
        split at hok
        · cases hok
        next hlen16 =>
          obtain ⟨h1, h2⟩ := Prod.mk.injEq .. ▸ Except.ok.inj hok
          refine ⟨?_, h1.symm, h2.symm⟩
          rw [h1.symm]
          exact goParseIP_colon_valid _ _ heq (colon_mem_interior host hhead hlast hcol)
    next => cases hok
  next hfalse => exact absurd (Or.inl hbr) hfalse

/-- Claim C4: the four concrete endpoint parses of the spec, and: whenever
`parseEndpoint` accepts an input whose raw host (the part before the last
colon) starts with `[`, the returned host is the bracket interior and is a
valid IPv6 literal per `net.ParseIP`. -/
theorem C4_parse_endpoint :
    parseEndpoint "192.168.42.0:51880".toList = .ok ("192.168.42.0".toList, 51880) ∧
    parseEndpoint "[2607:5300:60:6b0::c05f:543]:2468".toList
      = .ok ("2607:5300:60:6b0::c05f:543".toList, 2468) ∧
    parseEndpoint "[192.168.42.0:]:51880".toList
      = .error (.parse ⟨"Brackets must contain an IPv6 address", "[192.168.42.0:]".toList⟩) ∧
    parseEndpoint "[::::::invalid:18981".toList
      = .error (.parse ⟨"Brackets must contain an IPv6 address", "[::::::invalid".toList⟩) ∧
    (∀ (s h : List Char) (p i : Nat), goLastIndexByte s ':' = some i →
      (s.take i).headD ' ' = '[' → parseEndpoint s = .ok (h, p) →
      (parseIPv6go h).isSome = true ∧ h = ((s.take i).drop 1).dropLast) := by
  refine ⟨rfl, rfl, rfl, rfl, ?_⟩
  intro s h p i hlast hbr hok
  rw [parseEndpoint] at hok
  split at hok
  next hj =>
    rw [hlast] at hj
    cases hj
  next j hj =>
    rw [hlast] at hj
    obtain rfl : i = j := Option.some.inj hj
    split at hok
    · cases hok
    · split at hok
      · cases hok
      next port hport =>
        have hb := bracketCheck_ipv6 (s.take i) port h p hok hbr
        exact ⟨hb.1, hb.2.1⟩

/-- Witness for C4's universal part at the concrete input `[::1]:80`. -/
theorem C4_witness :
    (parseIPv6go "::1".toList).isSome = true ∧
    "::1".toList = (("[::1]:80".toList.take 5).drop 1).dropLast :=
  C4_parse_endpoint.2.2.2.2 "[::1]:80".toList "::1".toList 80 5 rfl rfl rfl

end WG

